import Mathlib

/-!
Verification of the terrain-generator / RTS-camera repository.

The TypeScript source is shallowly embedded over the real numbers:
`Math.sin` becomes `Real.sin`, JS number arithmetic becomes exact real
arithmetic, and the `for (x = lo; x < hi; x += step)` loops become maps
over `List.range` of the iteration count `⌈(hi - lo)/step⌉` (for positive
step this enumerates exactly the values `lo + k*step < hi` the JS loop
visits, without float rounding).  Raycasting against the triangulated
mesh is performed by the external graphics library, so it is modelled as
an oracle `ray : ℝ → ℝ → Option ℝ` returning the elevation of the first
downward intersection at `(x, z)`, or `none` when the ray misses.
-/

noncomputable section

/-- A 3D vector `(x, y, z)`, standing in for `THREE.Vector3`. -/
abbrev Vec3 : Type := ℝ × ℝ × ℝ

/-- Terrain configuration record (`TerrainConfig` in the source). -/
structure TerrainConfig where
  width : ℝ
  height : ℝ
  widthSegments : ℕ
  heightSegments : ℕ
  scale : ℝ
  maxHeight : ℝ

/-- Source function `perlinNoise(x, y, seed)`: `n = sin(x*12.9898 + y*78.233 + seed) * 43758.5453;
return n - floor(n)`. -/
def perlinNoise (x y seed : ℝ) : ℝ :=
  let n := Real.sin (x * 12.9898 + y * 78.233 + seed) * 43758.5453
  n - ⌊n⌋

/-- One-loop state of `improvedPerlinNoise` after `n` iterations:
`(value, amplitude, frequency, maxValue)`, initialised to `(0, 1, 1, 0)`;
iteration `i` adds `perlinNoise(x*frequency, y*frequency, seed+i) * amplitude`
to `value`, adds `amplitude` to `maxValue`, then multiplies `amplitude` by
`persistence` and `frequency` by `lacunarity`. -/
def octaveState (x y persistence lacunarity seed : ℝ) : ℕ → ℝ × ℝ × ℝ × ℝ
  | 0 => (0, 1, 1, 0)
  | n + 1 =>
    let s := octaveState x y persistence lacunarity seed n
    (s.1 + perlinNoise (x * s.2.2.1) (y * s.2.2.1) (seed + n) * s.2.1,
     s.2.1 * persistence,
     s.2.2.1 * lacunarity,
     s.2.2.2 + s.2.1)

/-- Source function `improvedPerlinNoise(x, y, octaves, persistence, lacunarity, seed)`:
runs the octave loop and returns `value / maxValue`. -/
def improvedPerlinNoise (x y : ℝ) (octaves : ℕ) (persistence lacunarity seed : ℝ) : ℝ :=
  let s := octaveState x y persistence lacunarity seed octaves
  s.1 / s.2.2.2

lemma perlinNoise_eq_fract (x y seed : ℝ) :
    perlinNoise x y seed =
      Int.fract (Real.sin (x * 12.9898 + y * 78.233 + seed) * 43758.5453) := rfl

lemma perlinNoise_nonneg (x y seed : ℝ) : 0 ≤ perlinNoise x y seed := by
  rw [perlinNoise_eq_fract]; exact Int.fract_nonneg _

lemma perlinNoise_lt_one (x y seed : ℝ) : perlinNoise x y seed < 1 := by
  rw [perlinNoise_eq_fract]; exact Int.fract_lt_one _

lemma octaveState_amplitude (x y p l seed : ℝ) (n : ℕ) :
    (octaveState x y p l seed n).2.1 = p ^ n := by
  induction n with
  | zero => simp [octaveState]
  | succ n ih => simp [octaveState, ih, pow_succ]

lemma octaveState_value_nonneg (x y p l seed : ℝ) (hp : 0 < p) (n : ℕ) :
    0 ≤ (octaveState x y p l seed n).1 := by
  induction n with
  | zero => simp [octaveState]
  | succ n ih =>
    have ha : (0:ℝ) ≤ (octaveState x y p l seed n).2.1 := by
      rw [octaveState_amplitude]; positivity
    have := perlinNoise_nonneg (x * (octaveState x y p l seed n).2.2.1)
      (y * (octaveState x y p l seed n).2.2.1) (seed + n)
    simp only [octaveState]
    have : 0 ≤ perlinNoise (x * (octaveState x y p l seed n).2.2.1)
        (y * (octaveState x y p l seed n).2.2.1) (seed + n) *
        (octaveState x y p l seed n).2.1 := mul_nonneg this ha
    linarith

lemma octaveState_value_lt_max (x y p l seed : ℝ) (hp : 0 < p) (n : ℕ) (hn : 1 ≤ n) :
    (octaveState x y p l seed n).1 < (octaveState x y p l seed n).2.2.2 := by
  induction n with
  | zero => omega
  | succ n ih =>
    have ha : (0:ℝ) < (octaveState x y p l seed n).2.1 := by
      rw [octaveState_amplitude]; positivity
    have hlt := perlinNoise_lt_one (x * (octaveState x y p l seed n).2.2.1)
      (y * (octaveState x y p l seed n).2.2.1) (seed + n)
    have hmul : perlinNoise (x * (octaveState x y p l seed n).2.2.1)
        (y * (octaveState x y p l seed n).2.2.1) (seed + n) *
        (octaveState x y p l seed n).2.1 < (octaveState x y p l seed n).2.1 := by
      nlinarith
    rcases Nat.eq_or_lt_of_le hn with h1 | h1
    · -- the first iteration: value goes from 0 to below maxValue = 1
      have h0 : n = 0 := by omega
      subst h0
      simp only [octaveState] at hmul ⊢
      simpa using hmul
    · have hn' : 1 ≤ n := by omega
      have := ih hn'
      simp only [octaveState]
      linarith

lemma improvedPerlinNoise_mem_Ico (x y : ℝ) (octaves : ℕ) (p l seed : ℝ)
    (hp : 0 < p) (hn : 1 ≤ octaves) :
    improvedPerlinNoise x y octaves p l seed ∈ Set.Ico (0:ℝ) 1 := by
  have hv := octaveState_value_nonneg x y p l seed hp octaves
  have hvm := octaveState_value_lt_max x y p l seed hp octaves hn
  have hm : 0 < (octaveState x y p l seed octaves).2.2.2 := lt_of_le_of_lt hv hvm
  constructor
  · exact div_nonneg hv hm.le
  · exact (div_lt_one hm).mpr hvm

/-- Planar `(x, y)` vertex coordinates of `THREE.PlaneGeometry(width, height,
widthSegments, heightSegments)`: row `iy` from `0` to `heightSegments`, column
`ix` from `0` to `widthSegments`, vertex `(ix*width/widthSegments - width/2,
height/2 - iy*height/heightSegments)`. -/
def planeGridVertices (cfg : TerrainConfig) : List (ℝ × ℝ) :=
  (List.range (cfg.heightSegments + 1)).flatMap fun (iy : ℕ) =>
    (List.range (cfg.widthSegments + 1)).map fun (ix : ℕ) =>
      ((ix : ℝ) * (cfg.width / cfg.widthSegments) - cfg.width / 2,
       cfg.height / 2 - (iy : ℝ) * (cfg.height / cfg.heightSegments))

/-- Elevation written by the deformation loop of `createTerrain`:
`improvedPerlinNoise(x/scale, y/scale, 4, 0.5, 2.0, 42) * maxHeight`. -/
def terrainElevation (cfg : TerrainConfig) (vx vy : ℝ) : ℝ :=
  improvedPerlinNoise (vx / cfg.scale) (vy / cfg.scale) 4 0.5 2 42 * cfg.maxHeight

/-- The deformed height-field surface: its config and the list of vertices
after the deformation loop (material, shadows and the `-π/2` rotation about X
are rendering concerns of the external library and carry no data the claims
touch). -/
structure Terrain where
  config : TerrainConfig
  vertices : List Vec3

/-- Source function `createTerrain(config)`: builds the plane grid and sets each vertex's
third coordinate to the noise elevation. -/
def createTerrain (cfg : TerrainConfig) : Terrain :=
  { config := cfg
    vertices := (planeGridVertices cfg).map fun v =>
      (v.1, v.2, terrainElevation cfg v.1 v.2) }

/-- Values visited by the JS loop `for (v = lo; v < hi; v += step)`: for
`step > 0` these are exactly `lo + k*step` for `0 ≤ k < ⌈(hi-lo)/step⌉`. -/
def loopValues (lo hi step : ℝ) : List ℝ :=
  (List.range (Int.toNat ⌈(hi - lo) / step⌉)).map fun (k : ℕ) => lo + (k : ℝ) * step

/-- All candidate grid points `(x, z)` scanned by `generateTreePositions`:
outer loop `x`, inner loop `z`, both over `[-gridSize/2, gridSize/2)` with
step `1/(density*10)`. -/
def candidatePairs (gridSize density : ℝ) : List (ℝ × ℝ) :=
  let step := 1 / (density * 10)
  (loopValues (-(gridSize / 2)) (gridSize / 2) step).flatMap fun x =>
    (loopValues (-(gridSize / 2)) (gridSize / 2) step).map fun z => (x, z)

/-- Body of the inner placement loop at candidate `(x, z)`: accept when the
placement noise exceeds `0.6` and the downward ray from `(x, 100, z)` hits the
surface, anchoring at the first hit's elevation plus `0.5`; otherwise produce
nothing. -/
def treeCandidate (ray : ℝ → ℝ → Option ℝ) (seed x z : ℝ) : Option Vec3 :=
  if 0.6 < improvedPerlinNoise (x / 5) (z / 5) 3 0.5 2 seed then
    match ray x z with
    | some h => some (x, h + 0.5, z)
    | none => none
  else none

/-- Source function `generateTreePositions(terrain, gridSize, density, seed)`: the ordered
sequence of accepted anchors over the scanned candidate grid. -/
def generateTreePositions (ray : ℝ → ℝ → Option ℝ) (gridSize density seed : ℝ) :
    List Vec3 :=
  (candidatePairs gridSize density).filterMap fun c => treeCandidate ray seed c.1 c.2

/-- State of a `TerrainGenerator` instance: its configs, current terrain mesh
and the anchors of the trees currently in the `trees` group (each accepted
anchor adds exactly one tree group as a child). -/
structure TerrainGenState where
  config : TerrainConfig
  terrain : Terrain
  trees : List Vec3

/-- The constructor: builds the terrain from the config and starts with an
empty trees group. -/
def TerrainGenState.init (cfg : TerrainConfig) : TerrainGenState :=
  { config := cfg, terrain := createTerrain cfg, trees := [] }

/-- Density used by `generate`: the JS conditional
`treeCount ? treeCount / (width * height) : 0.05` — note `0` is falsy in JS,
so a provided count of `0` falls back to the default `0.05`. -/
def generateDensity (treeCount : Option ℝ) (cfg : TerrainConfig) : ℝ :=
  match treeCount with
  | some c => if c = 0 then 0.05 else c / (cfg.width * cfg.height)
  | none => 0.05

/-- The placement pass run by `generate(treeCount?)`: grid size
`min(width, height)`, derived density, default seed `123`. -/
def TerrainGenState.generatePass (ray : Terrain → ℝ → ℝ → Option ℝ)
    (treeCount : Option ℝ) (g : TerrainGenState) : List Vec3 :=
  generateTreePositions (ray g.terrain) (min g.config.width g.config.height)
    (generateDensity treeCount g.config) 123

/-- Method `generate(treeCount?)`: runs the placement pass and adds one tree per
accepted anchor to the existing `trees` group (it never clears it). -/
def TerrainGenState.generate (ray : Terrain → ℝ → ℝ → Option ℝ)
    (treeCount : Option ℝ) (g : TerrainGenState) : TerrainGenState :=
  { g with trees := g.trees ++ g.generatePass ray treeCount }

/-- Method `regenerate(seed)`: clears the trees group, rebuilds the terrain with the
same config (hence the same fixed internal noise seed `42`), then places trees
with density `0.05` and the passed seed. -/
def TerrainGenState.regenerate (ray : Terrain → ℝ → ℝ → Option ℝ)
    (seed : ℝ) (g : TerrainGenState) : TerrainGenState :=
  let t := createTerrain g.config
  { g with
    terrain := t
    trees := generateTreePositions (ray t) (min g.config.width g.config.height)
      0.05 seed }

/-- Record returned by `getStats()`. -/
structure TerrainStats where
  terrainVertices : ℕ
  treeCount : ℕ
  terrainSize : ℝ × ℝ

/-- Method `getStats()`: vertex count (positions array length over 3), number of
children of the trees group, configured extents. -/
def TerrainGenState.getStats (g : TerrainGenState) : TerrainStats :=
  { terrainVertices := g.terrain.vertices.length
    treeCount := g.trees.length
    terrainSize := (g.config.width, g.config.height) }

/-- State of an `RTSCameraController` rig (the derived camera world position
is recomputed from these fields by `updateCameraPosition` and is not stored). -/
structure CameraState where
  target : Vec3
  distance : ℝ
  pitch : ℝ
  yaw : ℝ
  minZoom : ℝ
  maxZoom : ℝ
  minPitch : ℝ
  maxPitch : ℝ
  panSpeed : ℝ
  zoomSpeed : ℝ
  rotationSpeed : ℝ
  keysPressed : List String

/-- Constructor defaults of the rig. -/
def CameraState.init (target : Vec3) : CameraState :=
  { target := target, distance := 50, pitch := 45, yaw := 0
    minZoom := 10, maxZoom := 200, minPitch := 15, maxPitch := 85
    panSpeed := 30, zoomSpeed := 5, rotationSpeed := 0.01, keysPressed := [] }

/-- Method `setZoom(normalizedZoom)`: clamps the argument to `[0,1]` then sets
`distance = minZoom + (maxZoom - minZoom) * (1 - normalizedZoom)`. -/
def CameraState.setZoom (v : ℝ) (st : CameraState) : CameraState :=
  let v' := max 0 (min 1 v)
  { st with distance := st.minZoom + (st.maxZoom - st.minZoom) * (1 - v') }

/-- Method `getZoom()`: `1 - (distance - minZoom) / (maxZoom - minZoom)`. -/
def CameraState.getZoom (st : CameraState) : ℝ :=
  1 - (st.distance - st.minZoom) / (st.maxZoom - st.minZoom)

/-- Method `reset(target?)`: copies the target only when one is passed, then restores
`distance = 50`, `pitch = 45`, `yaw = 0` and clears the held-key set (the
subsequent `updateCameraPosition` only refreshes the derived camera position). -/
def CameraState.reset (target : Option Vec3) (st : CameraState) : CameraState :=
  { st with
    target := target.getD st.target
    distance := 50
    pitch := 45
    yaw := 0
    keysPressed := [] }

/-- The constructor's default terrain config. -/
def defaultTerrainConfig : TerrainConfig :=
  { width := 100, height := 100, widthSegments := 64, heightSegments := 64
    scale := 15, maxHeight := 15 }

/-- A 1×1 config with one segment per axis and `maxHeight = 0`. -/
def cfgFlat : TerrainConfig :=
  { width := 1, height := 1, widthSegments := 1, heightSegments := 1
    scale := 1, maxHeight := 0 }

lemma mem_loopValues {lo hi step x : ℝ} (hs : 0 < step) :
    x ∈ loopValues lo hi step ↔ ∃ k : ℕ, x = lo + k * step ∧ x < hi := by
  unfold loopValues
  rw [List.mem_map]
  constructor
  · rintro ⟨k, hk, rfl⟩
    rw [List.mem_range] at hk
    refine ⟨k, rfl, ?_⟩
    have h2 : (k : ℝ) < (hi - lo) / step := by
      exact_mod_cast Int.lt_ceil.mp (Int.lt_toNat.mp hk)
    have h3 : (k : ℝ) * step < hi - lo := (lt_div_iff₀ hs).mp h2
    linarith
  · rintro ⟨k, rfl, hlt⟩
    refine ⟨k, ?_, rfl⟩
    rw [List.mem_range]
    have h3 : (k : ℝ) * step < hi - lo := by linarith
    have h2 : ((k : ℤ) : ℝ) < (hi - lo) / step := by
      push_cast
      exact (lt_div_iff₀ hs).mpr h3
    exact Int.lt_toNat.mpr (Int.lt_ceil.mpr h2)

lemma loopValues_sorted {lo hi step : ℝ} (hs : 0 < step) :
    (loopValues lo hi step).Pairwise (· < ·) := by
  unfold loopValues
  rw [List.pairwise_map]
  refine (List.pairwise_lt_range _).imp ?_
  intro a b hab
  have : (a : ℝ) * step < (b : ℝ) * step :=
    mul_lt_mul_of_pos_right (by exact_mod_cast hab) hs
  linarith

lemma candidatePairs_pairwise {g d : ℝ} (hd : 0 < d) :
    (candidatePairs g d).Pairwise
      (fun a b : ℝ × ℝ => a.1 < b.1 ∨ (a.1 = b.1 ∧ a.2 < b.2)) := by
  have hs : (0:ℝ) < 1 / (d * 10) := by positivity
  unfold candidatePairs
  rw [List.pairwise_flatMap]
  constructor
  · intro x _
    rw [List.pairwise_map]
    exact (loopValues_sorted hs).imp fun h => Or.inr ⟨rfl, h⟩
  · refine (loopValues_sorted hs).imp ?_
    intro a b hab p hp q hq
    simp only [List.mem_map] at hp hq
    obtain ⟨z1, _, rfl⟩ := hp
    obtain ⟨z2, _, rfl⟩ := hq
    exact Or.inl hab

lemma treeCandidate_eq_some {ray : ℝ → ℝ → Option ℝ} {s x z : ℝ} {p : Vec3} :
    treeCandidate ray s x z = some p ↔
      0.6 < improvedPerlinNoise (x / 5) (z / 5) 3 0.5 2 s ∧
      ∃ h, ray x z = some h ∧ p = (x, h + 0.5, z) := by
  unfold treeCandidate
  split
  · next hn =>
    cases hray : ray x z with
    | some h => simp [hn, eq_comm]
    | none => simp [hn]
  · next hn => simp [hn]

lemma mem_generateTreePositions {ray : ℝ → ℝ → Option ℝ} {g d s : ℝ} {p : Vec3} :
    p ∈ generateTreePositions ray g d s ↔
      ∃ x z, x ∈ loopValues (-(g / 2)) (g / 2) (1 / (d * 10)) ∧
             z ∈ loopValues (-(g / 2)) (g / 2) (1 / (d * 10)) ∧
             treeCandidate ray s x z = some p := by
  unfold generateTreePositions candidatePairs
  simp only [List.mem_filterMap, List.mem_flatMap, List.mem_map]
  constructor
  · rintro ⟨c, ⟨x, hx, z, hz, rfl⟩, hc⟩
    exact ⟨x, z, hx, hz, hc⟩
  · rintro ⟨x, z, hx, hz, hc⟩
    exact ⟨(x, z), ⟨x, hx, z, hz, rfl⟩, hc⟩

lemma length_loopValues (lo hi step : ℝ) :
    (loopValues lo hi step).length = Int.toNat ⌈(hi - lo) / step⌉ := by
  unfold loopValues
  rw [List.length_map, List.length_range]

lemma length_candidatePairs (g d : ℝ) :
    (candidatePairs g d).length =
      Int.toNat ⌈(g / 2 - -(g / 2)) / (1 / (d * 10))⌉ *
      Int.toNat ⌈(g / 2 - -(g / 2)) / (1 / (d * 10))⌉ := by
  unfold candidatePairs
  rw [List.length_flatMap]
  have h1 : (List.length ∘ fun (x : ℝ) =>
      List.map (fun z => (x, z)) (loopValues (-(g / 2)) (g / 2) (1 / (d * 10)))) =
      fun (_ : ℝ) => (loopValues (-(g / 2)) (g / 2) (1 / (d * 10))).length := by
    funext x
    simp
  rw [h1, List.map_const', List.sum_replicate, smul_eq_mul, length_loopValues]

/-- C1: `regenerate(seed)` clears the tree collection and rebuilds the
terrain from the same config with the fixed internal noise seed `42`, so the
terrain is identical for any two seeds; only the tree-placement pass uses the
passed seed. -/
theorem c1_regenerate_fixed_terrain_seeded_trees
    (ray : Terrain → ℝ → ℝ → Option ℝ) (g : TerrainGenState) (s1 s2 : ℝ) :
    (g.regenerate ray s1).terrain = (g.regenerate ray s2).terrain ∧
    (g.regenerate ray s1).terrain = createTerrain g.config ∧
    (∀ v ∈ (g.regenerate ray s1).terrain.vertices,
      v.2.2 = improvedPerlinNoise (v.1 / g.config.scale) (v.2.1 / g.config.scale)
        4 0.5 2 42 * g.config.maxHeight) ∧
    (∀ ts, (TerrainGenState.regenerate ray s1 { g with trees := ts }).trees =
      (g.regenerate ray s1).trees) ∧
    (g.regenerate ray s1).trees =
      generateTreePositions (ray (createTerrain g.config))
        (min g.config.width g.config.height) 0.05 s1 := by
  refine ⟨rfl, rfl, ?_, fun ts => rfl, rfl⟩
  intro v hv
  simp only [TerrainGenState.regenerate, createTerrain, List.mem_map] at hv
  obtain ⟨w, _, rfl⟩ := hv
  rfl

/-- C1 witness: at the default config and a fresh generator, the elevation
hypothesis is discharged on the first vertex of the rebuilt terrain. -/
theorem c1_regenerate_fixed_terrain_seeded_trees_witness :
    ((TerrainGenState.init defaultTerrainConfig).regenerate
        (fun _ _ _ => none) 7).terrain =
      ((TerrainGenState.init defaultTerrainConfig).regenerate
        (fun _ _ _ => none) 8).terrain :=
  (c1_regenerate_fixed_terrain_seeded_trees (fun _ _ _ => none)
    (TerrainGenState.init defaultTerrainConfig) 7 8).1

/-- C6: with the step `1/(density*10)`, raising the density (both densities
positive) never decreases the number of candidate grid points scanned by the
placement pass. -/
theorem c6_candidate_count_monotone (g d1 d2 : ℝ) (h1 : 0 < d1) (h12 : d1 < d2) :
    (candidatePairs g d1).length ≤ (candidatePairs g d2).length := by
  have h2 : 0 < d2 := h1.trans h12
  have key : ∀ d : ℝ, 0 < d →
      (candidatePairs g d).length = Int.toNat ⌈g * (d * 10)⌉ * Int.toNat ⌈g * (d * 10)⌉ := by
    intro d hd
    rw [length_candidatePairs]
    have : (g / 2 - -(g / 2)) / (1 / (d * 10)) = g * (d * 10) := by
      rw [div_div_eq_mul_div]
      field_simp
    rw [this]
  rw [key d1 h1, key d2 h2]
  rcases le_or_lt 0 g with hg | hg
  · have hmul : g * (d1 * 10) ≤ g * (d2 * 10) := by nlinarith
    have := Int.toNat_le_toNat (Int.ceil_le_ceil hmul)
    exact Nat.mul_le_mul this this
  · have ha : g * (d1 * 10) ≤ 0 := by nlinarith
    have hb : g * (d2 * 10) ≤ 0 := by nlinarith
    have ha' : Int.toNat ⌈g * (d1 * 10)⌉ = 0 :=
      Int.toNat_of_nonpos (Int.ceil_le.mpr (by exact_mod_cast ha))
    simp [ha']

/-- C6 witness: concrete densities `1 < 2` on a `10 × 10` region. -/
theorem c6_candidate_count_monotone_witness :
    (0:ℝ) < 1 ∧ (1:ℝ) < 2 ∧
    (candidatePairs 10 1).length ≤ (candidatePairs 10 2).length :=
  ⟨by norm_num, by norm_num,
    c6_candidate_count_monotone 10 1 2 (by norm_num) (by norm_num)⟩

/-- C7 counterexample: `generate(0)` — a provided desired count of `0` — uses
the default density `0.05`, not `0 / (width * height) = 0`, because `0` is
falsy in the JS conditional. -/
theorem c7_counterexample :
    generateDensity (some 0) defaultTerrainConfig ≠
      0 / (defaultTerrainConfig.width * defaultTerrainConfig.height) := by
  simp only [generateDensity, if_pos rfl]
  norm_num

/-- C7 (amended): when `desiredCount` is provided and nonzero the density
passed to the placement sampler is `desiredCount / (width * height)`; when it
is absent — or provided as the falsy value `0` — the fixed default `0.05` is
used. -/
theorem c7_generate_density (ray : Terrain → ℝ → ℝ → Option ℝ)
    (cfg : TerrainConfig) (c : ℝ) (hc : c ≠ 0) :
    generateDensity (some c) cfg = c / (cfg.width * cfg.height) ∧
    generateDensity none cfg = 0.05 ∧
    generateDensity (some 0) cfg = 0.05 ∧
    (TerrainGenState.init cfg).generatePass ray (some c) =
      generateTreePositions (ray (createTerrain cfg)) (min cfg.width cfg.height)
        (c / (cfg.width * cfg.height)) 123 := by
  have hd : generateDensity (some c) cfg = c / (cfg.width * cfg.height) := by
    simp [generateDensity, hc]
  refine ⟨hd, rfl, by simp [generateDensity], ?_⟩
  unfold TerrainGenState.generatePass TerrainGenState.init
  rw [hd]

/-- C7 witness: a desired count of `200` on the default config. -/
theorem c7_generate_density_witness :
    (200:ℝ) ≠ 0 ∧
    generateDensity (some 200) defaultTerrainConfig =
      200 / (defaultTerrainConfig.width * defaultTerrainConfig.height) :=
  ⟨by norm_num,
    (c7_generate_density (fun _ _ _ => none) defaultTerrainConfig 200 (by norm_num)).1⟩

/-- C8: on any rig with `minZoom < maxZoom` and any normalized `v ∈ [0,1]`,
`setZoom v` then `getZoom` returns exactly `v`; `setZoom 0` puts the distance
at `maxZoom` and `setZoom 1` at `minZoom`. -/
theorem c8_zoom_roundtrip (st : CameraState) (v : ℝ)
    (hz : st.minZoom < st.maxZoom) (h0 : 0 ≤ v) (h1 : v ≤ 1) :
    (st.setZoom v).getZoom = v ∧
    (st.setZoom 0).distance = st.maxZoom ∧
    (st.setZoom 1).distance = st.minZoom := by
  have hne : st.maxZoom - st.minZoom ≠ 0 := sub_ne_zero.mpr (ne_of_gt hz)
  refine ⟨?_, ?_, ?_⟩
  · simp only [CameraState.setZoom, CameraState.getZoom]
    rw [min_eq_right h1, max_eq_right h0]
    field_simp
  · simp only [CameraState.setZoom]
    norm_num
  · simp only [CameraState.setZoom]
    norm_num

/-- C8 witness: the default rig with `v = 1/4`. -/
theorem c8_zoom_roundtrip_witness :
    (CameraState.init (0, 0, 0)).minZoom < (CameraState.init (0, 0, 0)).maxZoom ∧
    (0:ℝ) ≤ 1 / 4 ∧ (1 / 4 : ℝ) ≤ 1 ∧
    (((CameraState.init (0, 0, 0)).setZoom (1 / 4)).getZoom = 1 / 4 ∧
     ((CameraState.init (0, 0, 0)).setZoom 0).distance =
        (CameraState.init (0, 0, 0)).maxZoom ∧
     ((CameraState.init (0, 0, 0)).setZoom 1).distance =
        (CameraState.init (0, 0, 0)).minZoom) :=
  ⟨by norm_num [CameraState.init], by norm_num, by norm_num,
    c8_zoom_roundtrip (CameraState.init (0, 0, 0)) (1 / 4)
      (by norm_num [CameraState.init]) (by norm_num) (by norm_num)⟩

/-- C9: after `reset` from any prior state, `distance = 50`, `pitch = 45`,
`yaw = 0` and the held-key set is empty; calling it without a target leaves
the focus point unchanged. -/
theorem c9_reset_canonical_pose (st : CameraState) (t : Option Vec3) :
    (st.reset t).distance = 50 ∧ (st.reset t).pitch = 45 ∧
    (st.reset t).yaw = 0 ∧ (st.reset t).keysPressed = [] ∧
    (st.reset none).target = st.target :=
  ⟨rfl, rfl, rfl, rfl, rfl⟩

/-- C10: `generate` appends its pass's accepted anchors to the existing tree
group without clearing it, so two successive `generate` calls on a fresh
generator report a `treeCount` equal to the sum of the two passes' accepted
counts; only `regenerate` replaces the collection. -/
theorem c10_generate_appends
    (ray : Terrain → ℝ → ℝ → Option ℝ) (cfg : TerrainConfig)
    (c1 c2 : Option ℝ) (g : TerrainGenState) (s : ℝ) :
    (g.generate ray c1).trees = g.trees ++ g.generatePass ray c1 ∧
    (((TerrainGenState.init cfg).generate ray c1).generate ray c2).getStats.treeCount =
      ((TerrainGenState.init cfg).generatePass ray c1).length +
      (((TerrainGenState.init cfg).generate ray c1).generatePass ray c2).length ∧
    (g.regenerate ray s).trees =
      generateTreePositions (ray (createTerrain g.config))
        (min g.config.width g.config.height) 0.05 s := by
  refine ⟨rfl, ?_, rfl⟩
  simp [TerrainGenState.generate, TerrainGenState.getStats, TerrainGenState.init]

/-- C4: every accepted anchor's y-coordinate is the elevation of the first
downward-ray intersection at its `(x, z)` plus the fixed offset `0.5`, and a
candidate whose ray misses the surface contributes no entry to the returned
sequence (and no error: the pass is a total function). -/
theorem c4_anchor_heights (ray : ℝ → ℝ → Option ℝ) (g d s : ℝ) :
    (∀ p ∈ generateTreePositions ray g d s,
      ∃ h, ray p.1 p.2.2 = some h ∧ p.2.1 = h + 0.5) ∧
    (∀ x z, ray x z = none →
      ∀ p ∈ generateTreePositions ray g d s, ¬(p.1 = x ∧ p.2.2 = z)) := by
  constructor
  · intro p hp
    obtain ⟨x, z, _, _, hc⟩ := mem_generateTreePositions.mp hp
    obtain ⟨-, h, hray, rfl⟩ := treeCandidate_eq_some.mp hc
    exact ⟨h, hray, rfl⟩
  · rintro x z hnone p hp ⟨hx, hz⟩
    obtain ⟨x', z', _, _, hc⟩ := mem_generateTreePositions.mp hp
    obtain ⟨-, h, hray, rfl⟩ := treeCandidate_eq_some.mp hc
    simp only at hx hz
    rw [hx, hz] at hray
    rw [hnone] at hray
    exact Option.noConfusion hray

/-- C5: an entry appears in the placement result exactly for the candidate
grid points `(x, z)` of the square `[-gridSize/2, gridSize/2)` stepped by
`1/(density*10)` whose placement noise exceeds `0.6` and whose downward ray
hits the surface; and the returned sequence follows scan order — outer loop
`x` ascending, inner loop `z` ascending. -/
theorem c5_acceptance_and_scan_order (ray : ℝ → ℝ → Option ℝ) (g d s : ℝ)
    (hd : 0 < d) :
    (∀ p, p ∈ generateTreePositions ray g d s ↔
      ∃ x z hgt,
        (∃ k : ℕ, x = -(g / 2) + k * (1 / (d * 10))) ∧ -(g / 2) ≤ x ∧ x < g / 2 ∧
        (∃ k : ℕ, z = -(g / 2) + k * (1 / (d * 10))) ∧ -(g / 2) ≤ z ∧ z < g / 2 ∧
        0.6 < improvedPerlinNoise (x / 5) (z / 5) 3 0.5 2 s ∧
        ray x z = some hgt ∧ p = (x, hgt + 0.5, z)) ∧
    (generateTreePositions ray g d s).Pairwise
      (fun p q : Vec3 => p.1 < q.1 ∨ (p.1 = q.1 ∧ p.2.2 < q.2.2)) := by
  have hs : (0:ℝ) < 1 / (d * 10) := by positivity
  constructor
  · intro p
    rw [mem_generateTreePositions]
    constructor
    · rintro ⟨x, z, hx, hz, hc⟩
      obtain ⟨hn, h, hray, rfl⟩ := treeCandidate_eq_some.mp hc
      obtain ⟨kx, hxe, hxlt⟩ := (mem_loopValues hs).mp hx
      obtain ⟨kz, hze, hzlt⟩ := (mem_loopValues hs).mp hz
      have hxge : -(g / 2) ≤ x := by
        rw [hxe]
        have : (0:ℝ) ≤ (kx : ℝ) * (1 / (d * 10)) := by positivity
        linarith
      have hzge : -(g / 2) ≤ z := by
        rw [hze]
        have : (0:ℝ) ≤ (kz : ℝ) * (1 / (d * 10)) := by positivity
        linarith
      exact ⟨x, z, h, ⟨kx, hxe⟩, hxge, hxlt, ⟨kz, hze⟩, hzge, hzlt, hn, hray, rfl⟩
    · rintro ⟨x, z, hgt, ⟨kx, hxe⟩, -, hxlt, ⟨kz, hze⟩, -, hzlt, hn, hray, rfl⟩
      refine ⟨x, z, (mem_loopValues hs).mpr ⟨kx, hxe, hxlt⟩,
        (mem_loopValues hs).mpr ⟨kz, hze, hzlt⟩, ?_⟩
      exact treeCandidate_eq_some.mpr ⟨hn, hgt, hray, rfl⟩
  · unfold generateTreePositions
    rw [List.pairwise_filterMap]
    refine (candidatePairs_pairwise hd).imp ?_
    rintro a b hab p hp q hq
    rw [Option.mem_def] at hp hq
    obtain ⟨-, h1, -, rfl⟩ := treeCandidate_eq_some.mp hp
    obtain ⟨-, h2, -, rfl⟩ := treeCandidate_eq_some.mp hq
    exact hab

/-- C5 witness: the conclusion instantiated at a ray that always misses,
`gridSize = 1`, `density = 1`, `seed = 0`. -/
theorem c5_acceptance_and_scan_order_witness :
    (0:ℝ) < 1 ∧
    ((∀ p, p ∈ generateTreePositions (fun _ _ => none) 1 1 0 ↔
      ∃ x z hgt,
        (∃ k : ℕ, x = -((1:ℝ) / 2) + k * (1 / (1 * 10))) ∧
          -((1:ℝ) / 2) ≤ x ∧ x < 1 / 2 ∧
        (∃ k : ℕ, z = -((1:ℝ) / 2) + k * (1 / (1 * 10))) ∧
          -((1:ℝ) / 2) ≤ z ∧ z < 1 / 2 ∧
        0.6 < improvedPerlinNoise (x / 5) (z / 5) 3 0.5 2 0 ∧
        (fun (_ _ : ℝ) => (none : Option ℝ)) x z = some hgt ∧
        p = (x, hgt + 0.5, z)) ∧
    (generateTreePositions (fun _ _ => none) 1 1 0).Pairwise
      (fun p q : Vec3 => p.1 < q.1 ∨ (p.1 = q.1 ∧ p.2.2 < q.2.2))) :=
  ⟨by norm_num, c5_acceptance_and_scan_order (fun _ _ => none) 1 1 0 (by norm_num)⟩

lemma perlinNoise_of_arg {x y seed t : ℝ}
    (h : x * 12.9898 + y * 78.233 + seed = t) :
    perlinNoise x y seed = Int.fract (Real.sin t * 43758.5453) := by
  rw [perlinNoise_eq_fract, h]

lemma fract_sin_one : Int.fract ((1:ℝ) * 43758.5453) = 0.5453 := by
  have h : ((1:ℝ) * 43758.5453) = (43758 : ℤ) + 0.5453 := by norm_num
  rw [h, Int.fract_int_add]
  exact Int.fract_eq_self.mpr ⟨by norm_num, by norm_num⟩

lemma fract_sin_neg_half : Int.fract (-(1 / 2 : ℝ) * 43758.5453) = 0.72735 := by
  have h : (-(1 / 2 : ℝ) * 43758.5453) = (-21880 : ℤ) + 0.72735 := by norm_num
  rw [h, Int.fract_int_add]
  exact Int.fract_eq_self.mpr ⟨by norm_num, by norm_num⟩

/-- C2 (amended): for every `x`, `y`, seed, octave count `n ≥ 1`, every
lacunarity, and every positive persistence, `fractalNoise2D`
(`improvedPerlinNoise`) lies in `[0, 1)`.  (Positivity of the persistence is
needed: a negative persistence makes some amplitude weights negative and the
normalization fails, see the counterexample.) -/
theorem c2_fractal_noise_normalized (x y : ℝ) (octaves : ℕ)
    (persistence lacunarity seed : ℝ) (hoct : 1 ≤ octaves) (hp : 0 < persistence) :
    improvedPerlinNoise x y octaves persistence lacunarity seed ∈ Set.Ico (0:ℝ) 1 :=
  improvedPerlinNoise_mem_Ico x y octaves persistence lacunarity seed hp hoct

/-- C2 witness: the terrain parameters (4 octaves, persistence `0.5`,
lacunarity `2`). -/
theorem c2_fractal_noise_normalized_witness :
    1 ≤ 4 ∧ (0:ℝ) < 0.5 ∧
    improvedPerlinNoise 3 7 4 0.5 2 42 ∈ Set.Ico (0:ℝ) 1 :=
  ⟨by norm_num, by norm_num,
    c2_fractal_noise_normalized 3 7 4 0.5 2 42 (by norm_num) (by norm_num)⟩

/-- C2 counterexample: with octaves `2 ≥ 1`, persistence `-1/2`, lacunarity
`0`, seed `-1`, at `x = (π/2 + 1)/12.9898`, `y = 0`, the first octave's sine
argument is `π/2` and the second's is `0`, so the weighted sum is `0.5453`
while the amplitude total is `1 - 1/2 = 1/2`, giving output `1.0906 ∉ [0,1)` —
the claim's "every persistence and lacunarity value" is false. -/
theorem c2_counterexample :
    improvedPerlinNoise ((Real.pi / 2 + 1) / 12.9898) 0 2 (-(1 / 2)) 0 (-1) ∉
      Set.Ico (0:ℝ) 1 := by
  have e1 : perlinNoise ((Real.pi / 2 + 1) / 12.9898 * 1) (0 * 1)
      (-1 + ((0:ℕ) : ℝ)) = 0.5453 := by
    rw [perlinNoise_of_arg (t := Real.pi / 2) (by
      push_cast
      rw [mul_one, div_mul_cancel₀ _ (by norm_num : (12.9898:ℝ) ≠ 0)]
      ring)]
    rw [Real.sin_pi_div_two, fract_sin_one]
  have e2 : perlinNoise ((Real.pi / 2 + 1) / 12.9898 * (1 * 0)) (0 * (1 * 0))
      (-1 + ((1:ℕ) : ℝ)) = 0 := by
    rw [perlinNoise_of_arg (t := 0) (by push_cast; ring)]
    rw [Real.sin_zero, zero_mul, Int.fract_zero]
  have hval : improvedPerlinNoise ((Real.pi / 2 + 1) / 12.9898) 0 2 (-(1 / 2)) 0 (-1)
      = 1.0906 := by
    simp only [improvedPerlinNoise, octaveState]
    rw [e1, e2]
    norm_num
  rw [hval]
  norm_num

lemma createTerrain_vertices_ne_nil : (createTerrain cfgFlat).vertices ≠ [] := by
  simp [createTerrain, planeGridVertices, cfgFlat, List.range_succ]

/-- C3 counterexample: for a config with `maxHeight = 0` the half-open
interval `[0, maxHeight) = [0, 0)` is empty, so no vertex elevation can lie in
it — even though every elevation is exactly `0` there.  The unconditional
"every vertex elevation lies in `[0, maxHeight)`" is therefore false. -/
theorem c3_counterexample :
    ∃ v ∈ (createTerrain cfgFlat).vertices,
      v.2.2 ∉ Set.Ico (0:ℝ) cfgFlat.maxHeight := by
  obtain ⟨v, hv⟩ := List.exists_mem_of_ne_nil _ createTerrain_vertices_ne_nil
  refine ⟨v, hv, ?_⟩
  show v.2.2 ∉ Set.Ico (0:ℝ) 0
  rw [Set.Ico_self]
  exact Set.not_mem_empty _

/-- C3 (amended): every vertex of the generated height-field at planar
coordinates `(vx, vy)` has elevation
`fractalNoise2D(vx/scale, vy/scale, 4, 0.5, 2.0, 42) * maxHeight` before
rotation; when `maxHeight > 0` every vertex elevation lies in
`[0, maxHeight)`, and when `maxHeight = 0` every vertex elevation is exactly
`0`. -/
theorem c3_vertex_elevations (cfg : TerrainConfig) (v : Vec3)
    (hv : v ∈ (createTerrain cfg).vertices) :
    v.2.2 = improvedPerlinNoise (v.1 / cfg.scale) (v.2.1 / cfg.scale)
      4 0.5 2 42 * cfg.maxHeight ∧
    (0 < cfg.maxHeight → v.2.2 ∈ Set.Ico 0 cfg.maxHeight) ∧
    (cfg.maxHeight = 0 → v.2.2 = 0) := by
  simp only [createTerrain, List.mem_map] at hv
  obtain ⟨w, -, rfl⟩ := hv
  refine ⟨rfl, ?_, ?_⟩
  · intro hpos
    have hn := improvedPerlinNoise_mem_Ico (w.1 / cfg.scale) (w.2 / cfg.scale)
      4 0.5 2 42 (by norm_num) (by norm_num)
    refine ⟨mul_nonneg hn.1 hpos.le, ?_⟩
    exact mul_lt_of_lt_one_left hpos hn.2
  · intro h0
    show terrainElevation cfg w.1 w.2 = 0
    rw [terrainElevation, h0, mul_zero]

/-- C3 witness: at the `maxHeight = 0` config, the first grid vertex is in the
vertex list and its elevation is exactly `0`. -/
theorem c3_vertex_elevations_witness :
    ((-(1 / 2 : ℝ), (1 / 2 : ℝ),
        terrainElevation cfgFlat (-(1 / 2)) (1 / 2)) ∈
      (createTerrain cfgFlat).vertices) ∧
    ((-(1 / 2 : ℝ), (1 / 2 : ℝ),
        terrainElevation cfgFlat (-(1 / 2)) (1 / 2)) : Vec3).2.2 = 0 := by
  have hmem : ((-(1 / 2 : ℝ), (1 / 2 : ℝ),
      terrainElevation cfgFlat (-(1 / 2)) (1 / 2)) : Vec3) ∈
      (createTerrain cfgFlat).vertices := by
    simp only [createTerrain, planeGridVertices, cfgFlat, List.range_succ,
      List.range_zero, List.mem_map, List.mem_flatMap, List.mem_cons]
    norm_num
    exact ⟨-(1 / 2), 1 / 2, Or.inl (Or.inl ⟨rfl, rfl⟩), rfl, rfl, rfl⟩
  exact ⟨hmem,
    (c3_vertex_elevations cfgFlat _ hmem).2.2 rfl⟩

/-- Concrete placement input whose noise is provably above the threshold: the
first two octaves' sine arguments are `-π/6` and `-π/6 + 2π`. -/
def wX : ℝ := 5 * (2 * Real.pi - 1) / 12.9898

/-- Placement seed matching `wX` (makes the first sine argument `-π/6`). -/
def wSeed : ℝ := 1 - 2 * Real.pi - Real.pi / 6

/-- Region size: four steps of size `wX`. -/
def wGrid : ℝ := 4 * wX

/-- Density whose derived step `1/(density*10)` equals `wX`. -/
def wDensity : ℝ := 1 / (10 * wX)

/-- A surface oracle that misses for `x < 0` and reports elevation `0`
otherwise. -/
def wRay : ℝ → ℝ → Option ℝ := fun x _ => if x < 0 then none else some 0

lemma wX_pos : 0 < wX := by
  unfold wX
  have h := Real.pi_gt_three
  apply div_pos
  · nlinarith
  · norm_num

lemma wStep : 1 / (wDensity * 10) = wX := by
  unfold wDensity
  have hx : wX ≠ 0 := wX_pos.ne'
  field_simp

lemma wNoise_gt : 0.6 < improvedPerlinNoise (wX / 5) (0 / 5) 3 0.5 2 wSeed := by
  have e0 : perlinNoise (wX / 5 * 1) (0 / 5 * 1) (wSeed + ((0:ℕ) : ℝ)) = 0.72735 := by
    rw [perlinNoise_of_arg (t := -(Real.pi / 6)) (by
      unfold wX wSeed
      push_cast
      field_simp
      ring)]
    rw [Real.sin_neg, Real.sin_pi_div_six, fract_sin_neg_half]
  have e1 : perlinNoise (wX / 5 * (1 * 2)) (0 / 5 * (1 * 2))
      (wSeed + ((1:ℕ) : ℝ)) = 0.72735 := by
    rw [perlinNoise_of_arg (t := -(Real.pi / 6) + 2 * Real.pi) (by
      unfold wX wSeed
      push_cast
      field_simp
      ring)]
    rw [Real.sin_add_two_pi, Real.sin_neg, Real.sin_pi_div_six, fract_sin_neg_half]
  have h2 := perlinNoise_nonneg (wX / 5 * (1 * 2 * 2)) (0 / 5 * (1 * 2 * 2))
    (wSeed + ((2:ℕ) : ℝ))
  simp only [improvedPerlinNoise, octaveState]
  rw [e0, e1]
  rw [lt_div_iff₀ (by norm_num)]
  nlinarith [h2]

lemma wRay_hit : wRay wX 0 = some 0 := by
  unfold wRay
  rw [if_neg (not_lt.mpr wX_pos.le)]

lemma wRay_miss : wRay (-wX) 0 = none := by
  unfold wRay
  rw [if_pos (neg_lt_zero.mpr wX_pos)]

lemma wMem : ((wX, (0.5:ℝ), (0:ℝ)) : Vec3) ∈
    generateTreePositions wRay wGrid wDensity wSeed := by
  rw [mem_generateTreePositions]
  have hs : (0:ℝ) < 1 / (wDensity * 10) := by rw [wStep]; exact wX_pos
  refine ⟨wX, 0, ?_, ?_, ?_⟩
  · rw [mem_loopValues hs]
    refine ⟨3, ?_, ?_⟩
    · rw [wStep]; unfold wGrid; push_cast; ring
    · unfold wGrid; nlinarith [wX_pos]
  · rw [mem_loopValues hs]
    refine ⟨2, ?_, ?_⟩
    · rw [wStep]; unfold wGrid; push_cast; ring
    · unfold wGrid; nlinarith [wX_pos]
  · exact treeCandidate_eq_some.mpr ⟨wNoise_gt, 0, wRay_hit, by norm_num⟩

/-- C4 witness: a concrete pass containing the accepted anchor
`(wX, 0.5, 0)` (surface elevation `0` plus offset `0.5`), together with a
missed candidate at `(-wX, 0)` that produces no entry. -/
theorem c4_anchor_heights_witness :
    (((wX, (0.5:ℝ), (0:ℝ)) : Vec3) ∈
      generateTreePositions wRay wGrid wDensity wSeed) ∧
    (∃ h, wRay wX 0 = some h ∧ (0.5:ℝ) = h + 0.5) ∧
    wRay (-wX) 0 = none ∧
    ¬(wX = -wX ∧ (0:ℝ) = 0) :=
  ⟨wMem,
   (c4_anchor_heights wRay wGrid wDensity wSeed).1 _ wMem,
   wRay_miss,
   (c4_anchor_heights wRay wGrid wDensity wSeed).2 (-wX) 0 wRay_miss _ wMem⟩
